import Mathlib

/-!
Verification development for `scripts/generate_package.py` of the
`linux-cachyos-tuxedo-amd` repository.

The script resolves a patch series: it extracts Tuxedo commits, loads CachyOS
patch files referenced by a PKGBUILD, simulates applying both groups against a
pinned base tree through a disposable git index, and writes the surviving
patches as a numbered series.

The embedding below translates the pure data transformations of the script
directly, and models the external `git` collaborator (apply / reverse-check /
three-way apply / read-tree) as an explicit oracle over an abstract index-state
type, so that the control flow of `simulate_apply` is embedded exactly while
the outcome of each individual subprocess call stays a parameter.
-/

/-- A patch is a (label, content) pair, mirroring `Patch = tuple[str, str]`. -/
abbrev Patch := String × String

/-- Characters admitted by the label character class `[A-Za-z0-9._-]`
(line 347: `re.sub(r"[^A-Za-z0-9._-]+", "-", subject)`). -/
def isSafeChar (c : Char) : Bool :=
  c.isAlpha || c.isDigit || c == '.' || c == '_' || c == '-'

/-- Replace every maximal run of characters outside the safe class by a single
hyphen: the semantics of `re.sub(r"[^A-Za-z0-9._-]+", "-", subject)`.  The
Boolean argument records whether we are inside an unsafe run already replaced
by a hyphen. -/
def collapseGo : Bool → List Char → List Char
  | _, [] => []
  | inRun, c :: rest =>
    if isSafeChar c then c :: collapseGo false rest
    else if inRun then collapseGo true rest
    else '-' :: collapseGo true rest

/-- The substitution applied to a commit subject, starting outside any run. -/
def collapseUnsafe (l : List Char) : List Char :=
  collapseGo false l

/-- Python `str.strip("-")`: drop leading and trailing hyphens. -/
def stripHyphens (l : List Char) : List Char :=
  ((l.dropWhile (fun c => c == '-')).reverse.dropWhile (fun c => c == '-')).reverse

/-- Python slicing `s[:n]`: the first `n` characters of a string. -/
def takeChars (s : String) (n : Nat) : String :=
  String.mk (s.data.take n)

/-- Line 347 of the script:
`re.sub(r"[^A-Za-z0-9._-]+", "-", subject).strip("-") or commit[:12]`. -/
def safe_subject_label (subject commit : String) : String :=
  let cleaned := String.mk (stripHyphens (collapseUnsafe subject.data))
  if cleaned = "" then takeChars commit 12 else cleaned

/-- Lines 462-463 of the script: when the exclusion set is non-empty, keep only
commits whose full hash and whose first-12-character abbreviation are both
absent from it
(`[h for h in l if h not in EXCLUDE_COMMITS and h[:12] not in EXCLUDE_COMMITS]`). -/
def filter_excluded (excl : List String) (commits : List String) : List String :=
  if excl.isEmpty then commits
  else commits.filter (fun h => !(excl.contains h) && !(excl.contains (takeChars h 12)))

/-- Lines 462-465 of `main`: exclusion-set filtering followed by the sanity
bound on the commit count; `sys.exit` is modelled as `Except.error`. -/
def tuxedo_commit_selection (excl : List String) (raw : List String) :
    Except String (List String) :=
  let filtered := filter_excluded excl raw
  if filtered.length > 50 then
    Except.error ("unexpected tuxedo patch count: " ++ toString filtered.length ++ " (>50)")
  else Except.ok filtered

/-- Python `url.rsplit("/", 1)[-1]`: everything after the last slash. -/
def lastComponent (l : List Char) : List Char :=
  (l.reverse.takeWhile (fun c => c != '/')).reverse

/-- If `marker` occurs inside `l`, return the suffix after its first
occurrence (`url.split(marker, 1)[1]`); otherwise `none`
(the `marker in url` test of line 279). -/
def splitAfterFirst (marker : List Char) : List Char → Option (List Char)
  | [] => if marker.isEmpty then some [] else none
  | c :: rest =>
    if marker.isPrefixOf (c :: rest) then some ((c :: rest).drop marker.length)
    else splitAfterFirst marker rest

/-- Lines 276-282: derive the path of a patch URL relative to the patches
folder: everything after the first `/<folder>/` when present, else the URL's
final path component. -/
def derive_rel (folder url : String) : String :=
  let marker := "/" ++ folder ++ "/"
  match splitAfterFirst marker.data url.data with
  | some rel => String.mk rel
  | none => String.mk (lastComponent url.data)

/-- Python `pathlib.PurePath.stem` on the final path component: cut at the
last dot when that dot is neither the first nor the last character of the
name. -/
def stemChars (l : List Char) : List Char :=
  let nm := lastComponent l
  match nm.reverse.findIdx? (fun c => c == '.') with
  | none => nm
  | some j =>
    let i := nm.length - 1 - j
    if 0 < i ∧ i < nm.length - 1 then nm.take i else nm

/-- The substitution `re.sub(r"^[0-9]+-", "", stem)` of line 287: remove one
leading run of ASCII digits followed by a hyphen, when present. -/
def dropOrderingDigits (l : List Char) : List Char :=
  match l.dropWhile (fun c => c.isDigit) with
  | '-' :: rest => if (l.takeWhile (fun c => c.isDigit)).isEmpty then l else rest
  | _ => l

/-- Label of a loaded CachyOS patch (line 287):
`re.sub(r"^[0-9]+-", "", Path(rel).stem)`. -/
def cachyosLabel (rel : String) : String :=
  String.mk (dropOrderingDigits (stemChars rel.data))

/-- Python `str.strip()` with no argument: drop leading and trailing
whitespace characters. -/
def pyStrip (s : String) : String :=
  String.mk (((s.data.dropWhile Char.isWhitespace).reverse.dropWhile Char.isWhitespace).reverse)

/-- Line 271: keep the stripped source lines that end in `.patch`. -/
def filteredUrls (source_lines : List String) : List String :=
  (source_lines.map pyStrip).filter (fun l => List.isSuffixOf ".patch".data l.data)

/-- Lines 275-290: resolve every patch URL against the local patches checkout
(`fs` maps a path below the repository root to the file content when the file
exists) and load it; a missing file raises `FileNotFoundError`, modelled as
`Except.error`. -/
def cachyosGo (fs : String → Option String) (repo folder : String) :
    List String → Except String (List Patch)
  | [] => Except.ok []
  | url :: rest =>
    let rel := derive_rel folder url
    let src_path := repo ++ "/" ++ folder ++ "/" ++ rel
    match fs src_path with
    | none => Except.error ("Missing CachyOS patch referenced by PKGBUILD: " ++ src_path)
    | some content =>
      match cachyosGo fs repo folder rest with
      | Except.error e => Except.error e
      | Except.ok acc => Except.ok ((cachyosLabel rel, content) :: acc)

/-- The External Patch Loader `collect_cachyos_patches` (lines 249-290), from
the point where the PKGBUILD evaluation produced its source lines: filter to
patch URLs, reject an empty list, and load every patch in order. -/
def collect_cachyos_patches (fs : String → Option String) (repo folder : String)
    (source_lines : List String) : Except String (List Patch) :=
  let patch_urls := filteredUrls source_lines
  if patch_urls.isEmpty then Except.error "No CachyOS patches discovered from PKGBUILD"
  else cachyosGo fs repo folder patch_urls

/-- Loop body of `collect_commit_patches` (lines 330-350): `fp` models
`git format-patch -1 <commit> --stdout`, `subjects` the subject dictionary,
and the `current` counter is threaded exactly as in the source (incremented
each iteration, never read). -/
def collectGo (fp : String → String) (subjects : String → Option String) :
    List String → Int → List Patch
  | [], _ => []
  | commit :: rest, current =>
    let subject := Option.getD (subjects commit) ""
    let safe := safe_subject_label subject commit
    (safe, fp commit) :: collectGo fp subjects rest (current + 1)

/-- The Commit Patch Materializer `collect_commit_patches` (lines 328-351). -/
def collect_commit_patches (fp : String → String) (commits : List String)
    (start_number : Int) (subjects : String → Option String) : List Patch :=
  collectGo fp subjects commits start_number

/-- Classification of one patch application attempt (line 373-404). -/
inductive Outcome where
  | applied
  | skipped
  | failed
deriving DecidableEq

/-- Oracle for the git subprocess calls made by `simulate_apply`, over an
abstract staging-index state `σ`: whether a plain `git apply --cached`
succeeds and the state it leaves, whether `git apply --reverse --check`
succeeds (never mutating), whether `git apply --3way` succeeds and the states
it leaves on success and on failure, the diagnostic of a failed attempt, and
the state `git read-tree <base>` seeds the index with. -/
structure GitOracle (σ : Type) where
  directOk : σ → String → Bool
  stepDirect : σ → String → σ
  reverseOk : σ → String → Bool
  threeWayOk : σ → String → Bool
  stepThreeWay : σ → String → σ
  stepFail : σ → String → σ
  failMsg : σ → String → String
  readTree : String → σ

/-- The inner `apply_patch` of `simulate_apply` (lines 373-404): try a direct
apply; on failure and when `allow_skip`, test whether the inverse applies
cleanly ("already applied"); otherwise fall back to a three-way apply; report
`failed` with the captured diagnostic when everything fails.  The third
component is the staging-index state after the call. -/
def apply_patch {σ : Type} (g : GitOracle σ) (s : σ) (_label content : String)
    (allow_skip : Bool) : Outcome × String × σ :=
  if g.directOk s content then (Outcome.applied, "", g.stepDirect s content)
  else if allow_skip && g.reverseOk s content then
    (Outcome.skipped, "already applied (reverse clean)", s)
  else if g.threeWayOk s content then (Outcome.applied, "", g.stepThreeWay s content)
  else (Outcome.failed, g.failMsg s content, g.stepFail s content)

/-- The must-apply loop of `simulate_apply` (lines 406-412): every CachyOS
patch is attempted with `allow_skip=False`; a `failed` outcome raises
(`RuntimeError`, modelled as `Except.error`); otherwise the loop continues on
the post-call state. -/
def cachyosLoop {σ : Type} (g : GitOracle σ) (base : String) (s : σ) :
    List Patch → Except String σ
  | [] => Except.ok s
  | (label, content) :: rest =>
    match apply_patch g s label content false with
    | (o, msg, s2) =>
      if o = Outcome.failed then
        Except.error ("CachyOS patch failed to apply on " ++ base ++ ": "
          ++ label ++ " :: " ++ msg)
      else cachyosLoop g base s2 rest

/-- The best-effort loop of `simulate_apply` (lines 414-424): collect the
patches that apply (first component) and the (label, diagnostic) pairs of the
ones that fail (second component); skipped patches are only logged. -/
def tuxedoLoop {σ : Type} (g : GitOracle σ) (s : σ) :
    List Patch → List Patch × List (String × String)
  | [] => ([], [])
  | (label, content) :: rest =>
    match apply_patch g s label content true with
    | (o, msg, s2) =>
      if o = Outcome.applied then
        let r := tuxedoLoop g s2 rest
        ((label, content) :: r.1, r.2)
      else if o = Outcome.skipped then tuxedoLoop g s2 rest
      else
        let r := tuxedoLoop g s2 rest
        (r.1, (label, msg) :: r.2)

/-- Per-patch classification trace of the best-effort loop: the same state
threading as `tuxedoLoop`, recording the outcome of every patch. -/
def classifyTuxedo {σ : Type} (g : GitOracle σ) (s : σ) :
    List Patch → List (Patch × Outcome)
  | [] => []
  | (label, content) :: rest =>
    match apply_patch g s label content true with
    | (o, _, s2) => ((label, content), o) :: classifyTuxedo g s2 rest

/-- The patches of a classification trace that were classified `applied`. -/
def appliedOf (l : List (Patch × Outcome)) : List Patch :=
  l.filterMap (fun po => if po.2 = Outcome.applied then some po.1 else none)

/-- The Simulated Application Engine `simulate_apply` (lines 354-433): seed a
disposable index from the base tree, run the must-apply loop (aborting on its
first failure), then the best-effort loop, and return
`cachyos + applied_tuxedo` (line 431). -/
def simulate_apply {σ : Type} (g : GitOracle σ) (base_treeish : String)
    (cachyos tuxedo : List Patch) : Except String (List Patch) :=
  match cachyosLoop g base_treeish (g.readTree base_treeish) cachyos with
  | Except.error e => Except.error e
  | Except.ok s2 => Except.ok (cachyos ++ (tuxedoLoop g s2 tuxedo).1)

/-- Python `f"{n:04d}"` for a natural number: decimal digits left-padded with
zeros to width four. -/
def pad4 (n : Nat) : String :=
  let s := toString n
  if s.length < 4 then String.mk (List.replicate (4 - s.length) '0') ++ s else s

/-- The write loop of `write_patches` (lines 442-446): one file
`f"{current:04d}-{label}.patch"` per patch, content unchanged, counter
incremented per file. -/
def writeLoop : List Patch → Nat → List (String × String)
  | [], _ => []
  | (label, content) :: rest, current =>
    (pad4 current ++ "-" ++ label ++ ".patch", content) :: writeLoop rest (current + 1)

/-- The Series Writer `write_patches` (lines 436-446) as a function on the
destination directory's contents (`none` models an absent directory): a
pre-existing directory is removed entirely (`shutil.rmtree`) and recreated
empty, then the write loop fills it. -/
def write_patches (patches : List Patch) (dest_prev : Option (List (String × String)))
    (start_number : Nat) : List (String × String) :=
  let emptied : List (String × String) :=
    match dest_prev with
    | some _ => []
    | none => []
  emptied ++ writeLoop patches start_number

/-- Lines 496-497 of `main`: the destination directory after
`simulate_apply` + `write_patches`.  When `simulate_apply` raises, the
exception propagates out of `main` and the directory is left untouched. -/
def destAfterRun {σ : Type} (g : GitOracle σ) (base : String)
    (cachyos tuxedo : List Patch) (prev : Option (List (String × String))) :
    Option (List (String × String)) :=
  match simulate_apply g base cachyos tuxedo with
  | Except.error _ => prev
  | Except.ok applied => some (write_patches applied prev 1)

/-! ### Helper lemmas -/

/-- Every character emitted by the subject substitution is in the safe class:
kept characters are safe by the test, and the replacement hyphen is safe. -/
theorem collapseGo_safe : ∀ (b : Bool) (l : List Char), ∀ c ∈ collapseGo b l, isSafeChar c = true := by
  intro b l
  induction l generalizing b with
  | nil => intro c hc; simp [collapseGo] at hc
  | cons a rest ih =>
    intro c hc
    by_cases ha : isSafeChar a = true
    · have he : collapseGo b (a :: rest) = a :: collapseGo false rest := by
        simp [collapseGo, ha]
      rw [he] at hc
      rcases List.mem_cons.mp hc with rfl | hc
      · exact ha
      · exact ih false c hc
    · cases b with
      | true =>
        have he : collapseGo true (a :: rest) = collapseGo true rest := by
          simp [collapseGo, ha]
        rw [he] at hc
        exact ih true c hc
      | false =>
        have he : collapseGo false (a :: rest) = '-' :: collapseGo true rest := by
          simp [collapseGo, ha]
        rw [he] at hc
        rcases List.mem_cons.mp hc with rfl | hc
        · decide
        · exact ih true c hc

/-- Stripping hyphens only removes elements. -/
theorem mem_of_mem_stripHyphens {l : List Char} {c : Char} (h : c ∈ stripHyphens l) : c ∈ l := by
  unfold stripHyphens at h
  rw [List.mem_reverse] at h
  have h2 := (List.dropWhile_sublist (fun c => c == '-')).mem h
  rw [List.mem_reverse] at h2
  exact (List.dropWhile_sublist (fun c => c == '-')).mem h2

/-- A string built from a non-empty character list is not the empty string. -/
theorem mk_ne_empty {l : List Char} (h : l ≠ []) : String.mk l ≠ "" := by
  intro he
  exact h (congrArg String.data he)

/-! ### Claim theorems -/

/-- Claim C6: commit label derivation is total and deterministic — for every
subject string the label is the collapsed-and-trimmed subject, falling back to
the first 12 characters of the commit identifier when that is empty; for a
real (non-empty, hex) commit identifier the label is always non-empty and
consists only of filesystem-safe characters from `[A-Za-z0-9._-]`. -/
theorem c6_label_total_safe : ∀ subject commit : String,
    commit.data ≠ [] → (∀ c ∈ commit.data, isSafeChar c = true) →
    safe_subject_label subject commit ≠ "" ∧
    ∀ c ∈ (safe_subject_label subject commit).data, isSafeChar c = true := by
  intro subject commit hne hsafe
  have hdef : safe_subject_label subject commit =
      (if String.mk (stripHyphens (collapseUnsafe subject.data)) = ""
       then takeChars commit 12 else String.mk (stripHyphens (collapseUnsafe subject.data))) := rfl
  by_cases h : String.mk (stripHyphens (collapseUnsafe subject.data)) = ""
  · rw [hdef, if_pos h]
    constructor
    · apply mk_ne_empty
      cases hd : commit.data with
      | nil => exact absurd hd hne
      | cons a as => simp [hd]
    · intro c hc
      exact hsafe c ((List.take_sublist 12 commit.data).mem hc)
  · rw [hdef, if_neg h]
    refine ⟨h, ?_⟩
    intro c hc
    exact collapseGo_safe false subject.data c (mem_of_mem_stripHyphens hc)

/-- Witness for C6 at a concrete all-symbols-adjacent subject and a real
40-character hex commit identifier. -/
theorem c6_witness :
    ("abcdef123456abcdef123456abcdef1234567890" : String).data ≠ [] ∧
    (∀ c ∈ ("abcdef123456abcdef123456abcdef1234567890" : String).data, isSafeChar c = true) ∧
    (safe_subject_label "? !" "abcdef123456abcdef123456abcdef1234567890" ≠ "" ∧
     ∀ c ∈ (safe_subject_label "? !" "abcdef123456abcdef123456abcdef1234567890").data,
       isSafeChar c = true) :=
  ⟨by decide, by decide,
   c6_label_total_safe "? !" "abcdef123456abcdef123456abcdef1234567890" (by decide) (by decide)⟩

/-- Helper: the counter threaded through the materializer loop never
influences the produced patches. -/
theorem collectGo_counter_irrelevant (fp : String → String)
    (subjects : String → Option String) :
    ∀ (commits : List String) (n m : Int),
      collectGo fp subjects commits n = collectGo fp subjects commits m := by
  intro commits
  induction commits with
  | nil => intro n m; rfl
  | cons c rest ih =>
    intro n m
    simp only [collectGo]
    rw [ih (n + 1) (m + 1)]

/-- Claim C9: `collect_commit_patches` is independent of its `start_number`
argument — for every repository oracle, commit list and subject map, any two
start numbers yield identical ordered (label, content) lists. -/
theorem c9_start_number_independent : ∀ (fp : String → String) (commits : List String)
    (subjects : String → Option String) (n m : Int),
    collect_commit_patches fp commits n subjects = collect_commit_patches fp commits m subjects := by
  intro fp commits subjects n m
  exact collectGo_counter_irrelevant fp subjects commits n m

/-- Claim C10: in the must-apply loop `apply_patch` runs with
`allow_skip=False`, so its result never depends on the reverse-apply oracle
(the reverse check is never performed) and the classification is never
`skipped` — it is either `applied` or `failed`. -/
theorem c10_must_apply_never_skipped : ∀ {σ : Type} (g : GitOracle σ)
    (r : σ → String → Bool) (s : σ) (label content : String),
    apply_patch (GitOracle.mk g.directOk g.stepDirect r g.threeWayOk g.stepThreeWay
        g.stepFail g.failMsg g.readTree) s label content false
      = apply_patch g s label content false ∧
    ((apply_patch g s label content false).1 = Outcome.applied ∨
     (apply_patch g s label content false).1 = Outcome.failed) := by
  intro σ g r s label content
  constructor
  · rfl
  · by_cases h1 : g.directOk s content = true
    · simp [apply_patch, h1]
    · by_cases h2 : g.threeWayOk s content = true
      · simp [apply_patch, h1, h2]
      · simp [apply_patch, h1, h2]

/-- Claim C5: when the filtered commit list exceeds the bound of 50, the run
aborts with the fatal count error; and whenever the selection succeeds, the
list is returned exactly as filtered — never truncated. -/
theorem c5_count_guard : ∀ (excl raw : List String),
    (50 < (filter_excluded excl raw).length →
      tuxedo_commit_selection excl raw =
        Except.error ("unexpected tuxedo patch count: "
          ++ toString (filter_excluded excl raw).length ++ " (>50)")) ∧
    (∀ res, tuxedo_commit_selection excl raw = Except.ok res →
      res = filter_excluded excl raw) := by
  intro excl raw
  constructor
  · intro h
    simp [tuxedo_commit_selection, h]
  · intro res h
    by_cases hgt : (filter_excluded excl raw).length > 50
    · simp [tuxedo_commit_selection, hgt] at h
    · simp [tuxedo_commit_selection, hgt] at h
      exact h.symm

/-- Witness for C5 at a 51-commit list with an empty exclusion set. -/
theorem c5_witness :
    50 < (filter_excluded [] (List.replicate 51 "h")).length ∧
    tuxedo_commit_selection [] (List.replicate 51 "h") =
      Except.error ("unexpected tuxedo patch count: "
        ++ toString (filter_excluded [] (List.replicate 51 "h")).length ++ " (>50)") :=
  ⟨by decide, (c5_count_guard [] (List.replicate 51 "h")).1 (by decide)⟩

/-- A 40-character commit identifier whose first 8 characters form the
abbreviated exclusion entry documented in the script
(`EXCLUDE_COMMITS = ... Example: {"deadbeef", "abc123"}`). -/
def hC4 : String := "deadbeefaaaaaaaaaaaaaaaaaaaaaaaaaaaaaaaa"

/-- Claim C4 (code-bug evidence): `hC4` matches the exclusion entry
`"deadbeef"` by prefix, yet the filter of lines 462-463 keeps it, because the
code only tests the full hash and the exact first-12-character abbreviation
for set membership; the same commit is dropped when the entry is its
12-character abbreviation or its full hash. -/
theorem c4_prefix_entry_not_dropped :
    List.isPrefixOf "deadbeef".data hC4.data = true ∧
    filter_excluded ["deadbeef"] [hC4] = [hC4] ∧
    filter_excluded ["deadbeefaaaa"] [hC4] = [] ∧
    filter_excluded [hC4] [hC4] = [] :=
  ⟨by decide, by decide, by decide, by decide⟩

/-- Helper: the write loop writes one file per patch. -/
theorem writeLoop_length : ∀ (ps : List Patch) (s : Nat),
    (writeLoop ps s).length = ps.length := by
  intro ps
  induction ps with
  | nil => intro s; rfl
  | cons p rest ih =>
    intro s
    obtain ⟨l, c⟩ := p
    simp [writeLoop, ih]

/-- Helper: the i-th file written by the write loop has the sequential
zero-padded prefix and the unchanged patch content. -/
theorem writeLoop_getElem? : ∀ (ps : List Patch) (s i : Nat),
    (writeLoop ps s)[i]? =
      (ps[i]?).map (fun p => (pad4 (s + i) ++ "-" ++ p.1 ++ ".patch", p.2)) := by
  intro ps
  induction ps with
  | nil => intro s i; simp [writeLoop]
  | cons p rest ih =>
    intro s i
    obtain ⟨l, c⟩ := p
    cases i with
    | zero => simp [writeLoop]
    | succ j =>
      have h1 : (writeLoop ((l, c) :: rest) s)[j + 1]? = (writeLoop rest (s + 1))[j]? := by
        simp [writeLoop]
      have h2 : (((l, c) :: rest : List Patch))[j + 1]? = rest[j]? := by simp
      rw [h1, h2, ih (s + 1) j]
      have h3 : s + 1 + j = s + (j + 1) := by omega
      rw [h3]

/-- Claim C7: the Series Writer replaces any pre-existing destination
directory, writes exactly one file per patch named by the zero-padded
sequential number and the label with the content unchanged, and its result is
independent of the previous directory contents — so running it twice with the
same list yields byte-identical contents. -/
theorem c7_series_writer_idempotent : ∀ (ps : List Patch)
    (prev prev2 : Option (List (String × String))) (s i : Nat),
    (write_patches ps prev s).length = ps.length ∧
    (write_patches ps prev s)[i]? =
      (ps[i]?).map (fun p => (pad4 (s + i) ++ "-" ++ p.1 ++ ".patch", p.2)) ∧
    write_patches ps prev s = write_patches ps prev2 s := by
  intro ps prev prev2 s i
  have hw : ∀ pr : Option (List (String × String)), write_patches ps pr s = writeLoop ps s := by
    intro pr
    cases pr with
    | none => rfl
    | some old => rfl
  refine ⟨?_, ?_, ?_⟩
  · rw [hw]
    exact writeLoop_length ps s
  · rw [hw]
    exact writeLoop_getElem? ps s i
  · rw [hw, hw]

/-- Helper: `appliedOf` on a cons of the classification trace. -/
theorem appliedOf_cons (p : Patch) (o : Outcome) (l : List (Patch × Outcome)) :
    appliedOf ((p, o) :: l) = if o = Outcome.applied then p :: appliedOf l else appliedOf l := by
  cases o <;> simp [appliedOf, List.filterMap_cons]

/-- Helper: the applied-patch list collected by the best-effort loop is
exactly the applied part of its classification trace. -/
theorem tuxedoLoop_fst_eq {σ : Type} (g : GitOracle σ) :
    ∀ (ps : List Patch) (s : σ), (tuxedoLoop g s ps).1 = appliedOf (classifyTuxedo g s ps) := by
  intro ps
  induction ps with
  | nil => intro s; rfl
  | cons p rest ih =>
    intro s
    obtain ⟨label, content⟩ := p
    rcases h : apply_patch g s label content true with ⟨o, msg, s2⟩
    cases o with
    | applied => simp [tuxedoLoop, classifyTuxedo, appliedOf_cons, h, ih]
    | skipped => simp [tuxedoLoop, classifyTuxedo, appliedOf_cons, h, ih]
    | failed => simp [tuxedoLoop, classifyTuxedo, appliedOf_cons, h, ih]

/-- Helper: the applied best-effort patches are a sublist of the input group,
so their original relative order is preserved and nothing is added. -/
theorem appliedOf_classify_sublist {σ : Type} (g : GitOracle σ) :
    ∀ (ps : List Patch) (s : σ), List.Sublist (appliedOf (classifyTuxedo g s ps)) ps := by
  intro ps
  induction ps with
  | nil => intro s; simp [classifyTuxedo, appliedOf]
  | cons p rest ih =>
    intro s
    obtain ⟨label, content⟩ := p
    rcases h : apply_patch g s label content true with ⟨o, msg, s2⟩
    have he : classifyTuxedo g s ((label, content) :: rest)
        = ((label, content), o) :: classifyTuxedo g s2 rest := by
      simp [classifyTuxedo, h]
    rw [he, appliedOf_cons]
    cases o with
    | applied => simpa using List.Sublist.cons₂ (label, content) (ih s2)
    | skipped => simpa using List.Sublist.cons (label, content) (ih s2)
    | failed => simpa using List.Sublist.cons (label, content) (ih s2)

/-- Helper: the must-apply loop over a concatenation runs the first block
first; when that block succeeds, the loop continues on the rest from the
reached state. -/
theorem cachyosLoop_append_ok {σ : Type} (g : GitOracle σ) (base : String) :
    ∀ (pre rest : List Patch) (s s2 : σ),
      cachyosLoop g base s pre = Except.ok s2 →
      cachyosLoop g base s (pre ++ rest) = cachyosLoop g base s2 rest := by
  intro pre
  induction pre with
  | nil =>
    intro rest s s2 h
    injection h with h
    subst h
    rfl
  | cons p pre ih =>
    intro rest s s2 h
    obtain ⟨label, content⟩ := p
    rcases happ : apply_patch g s label content false with ⟨o, msg, st⟩
    by_cases ho : o = Outcome.failed
    · subst ho
      simp [cachyosLoop, happ] at h
    · rw [List.cons_append]
      have hstep : ∀ ps, cachyosLoop g base s ((label, content) :: ps)
          = cachyosLoop g base st ps := by
        intro ps
        simp [cachyosLoop, happ, ho]
      rw [hstep] at h
      rw [hstep (pre ++ rest)]
      exact ih rest st s2 h

/-- Claim C1: every run of the engine that completes without a fatal error
returns exactly the must-apply patches in their input order followed by
exactly the best-effort patches classified `applied`, in their original
relative order; skipped and failed best-effort patches are omitted. -/
theorem c1_output_order : ∀ {σ : Type} (g : GitOracle σ) (base : String)
    (cachyos tuxedo out : List Patch),
    simulate_apply g base cachyos tuxedo = Except.ok out →
    ∃ s2, cachyosLoop g base (g.readTree base) cachyos = Except.ok s2 ∧
      out = cachyos ++ appliedOf (classifyTuxedo g s2 tuxedo) ∧
      List.Sublist (appliedOf (classifyTuxedo g s2 tuxedo)) tuxedo := by
  intro σ g base cachyos tuxedo out h
  unfold simulate_apply at h
  rcases hc : cachyosLoop g base (g.readTree base) cachyos with e | s2
  · rw [hc] at h
    cases h
  · rw [hc] at h
    injection h with h
    refine ⟨s2, rfl, ?_, appliedOf_classify_sublist g tuxedo s2⟩
    rw [← h, tuxedoLoop_fst_eq]

/-- Oracle for the C1 witness: content "ok" applies directly, "tw" only via
three-way, "dup" is reverse-clean, everything else fails. -/
def gW1 : GitOracle Nat :=
  GitOracle.mk (fun _ c => c == "ok") (fun s _ => s + 1) (fun _ c => c == "dup")
    (fun _ c => c == "tw") (fun s _ => s + 1) (fun s _ => s) (fun _ _ => "no") (fun _ => 0)

/-- Must-apply group of the C1 witness. -/
def cachyosW : List Patch := [("M1", "ok"), ("M2", "tw")]

/-- Best-effort group of the C1 witness: one applies, one is already applied,
one fails. -/
def tuxedoW : List Patch := [("B1", "ok"), ("B2", "dup"), ("B3", "bad")]

/-- Witness for C1 on a run with an applied, a skipped and a failed
best-effort patch. -/
theorem c1_witness : ∃ s2,
    cachyosLoop gW1 "base" (gW1.readTree "base") cachyosW = Except.ok s2 ∧
    cachyosW ++ [(("B1" : String), ("ok" : String))]
      = cachyosW ++ appliedOf (classifyTuxedo gW1 s2 tuxedoW) ∧
    List.Sublist (appliedOf (classifyTuxedo gW1 s2 tuxedoW)) tuxedoW :=
  c1_output_order gW1 "base" cachyosW tuxedoW (cachyosW ++ [("B1", "ok")]) rfl

/-- Claim C2: a must-apply patch whose direct and three-way applies both fail
makes the whole engine return the fatal diagnostic instead of any patch list,
and the destination directory is left untouched — the Series Writer never
runs. -/
theorem c2_must_apply_failure_fatal : ∀ {σ : Type} (g : GitOracle σ) (base : String)
    (pre post tuxedo : List Patch) (label content : String) (s2 : σ)
    (prev : Option (List (String × String))),
    cachyosLoop g base (g.readTree base) pre = Except.ok s2 →
    g.directOk s2 content = false →
    g.threeWayOk s2 content = false →
    simulate_apply g base (pre ++ (label, content) :: post) tuxedo =
      Except.error ("CachyOS patch failed to apply on " ++ base ++ ": " ++ label
        ++ " :: " ++ g.failMsg s2 content) ∧
    destAfterRun g base (pre ++ (label, content) :: post) tuxedo prev = prev := by
  intro σ g base pre post tuxedo label content s2 prev hpre hdir h3w
  have happ : apply_patch g s2 label content false =
      (Outcome.failed, g.failMsg s2 content, g.stepFail s2 content) := by
    simp [apply_patch, hdir, h3w]
  have hloop : cachyosLoop g base (g.readTree base) (pre ++ (label, content) :: post) =
      Except.error ("CachyOS patch failed to apply on " ++ base ++ ": " ++ label
        ++ " :: " ++ g.failMsg s2 content) := by
    rw [cachyosLoop_append_ok g base pre ((label, content) :: post) (g.readTree base) s2 hpre]
    simp [cachyosLoop, happ]
  constructor
  · unfold simulate_apply
    rw [hloop]
  · unfold destAfterRun simulate_apply
    rw [hloop]

/-- Oracle for the C2 witness: every apply mode fails. -/
def gW2 : GitOracle Nat :=
  GitOracle.mk (fun _ _ => false) (fun s _ => s) (fun _ _ => false) (fun _ _ => false)
    (fun s _ => s) (fun s _ => s) (fun _ _ => "boom") (fun _ => 0)

/-- Witness for C2 at a single failing must-apply patch. -/
theorem c2_witness :
    cachyosLoop gW2 "b" (gW2.readTree "b") [] = Except.ok (gW2.readTree "b") ∧
    gW2.directOk (gW2.readTree "b") "c" = false ∧
    gW2.threeWayOk (gW2.readTree "b") "c" = false ∧
    (simulate_apply gW2 "b" ([] ++ ("M1", "c") :: []) [] =
      Except.error ("CachyOS patch failed to apply on " ++ "b" ++ ": " ++ "M1"
        ++ " :: " ++ gW2.failMsg (gW2.readTree "b") "c") ∧
     destAfterRun gW2 "b" ([] ++ ("M1", "c") :: []) [] none = none) :=
  ⟨rfl, rfl, rfl,
   c2_must_apply_failure_fatal gW2 "b" [] [] [] "M1" "c" (gW2.readTree "b") none rfl rfl rfl⟩

/-- Oracle for the C3 counterexample: the direct apply succeeds and the
inverse would also apply cleanly (as for an empty patch file). -/
def gC3 : GitOracle Nat :=
  GitOracle.mk (fun _ _ => true) (fun s _ => s + 1) (fun _ _ => true) (fun _ _ => false)
    (fun s _ => s) (fun s _ => s) (fun _ _ => "m") (fun _ => 0)

/-- Counterexample to Claim C3 as stated: a best-effort patch whose inverse
applies cleanly against the current staging-index state is nevertheless
classified `applied` — and kept in the output — whenever its direct apply
succeeds, because the engine only consults the reverse check after a direct
failure. -/
theorem c3_counterexample :
    gC3.reverseOk (gC3.readTree "b") "x" = true ∧
    (apply_patch gC3 (gC3.readTree "b") "B1" "x" true).1 = Outcome.applied ∧
    simulate_apply gC3 "b" [] [("B1", "x")] = Except.ok [("B1", "x")] :=
  ⟨rfl, rfl, rfl⟩

/-- Claim C3 as amended: a best-effort patch whose direct apply fails and
whose inverse applies cleanly against the current staging-index state is
classified `skipped` — never `applied` or `failed` — and the loop drops it
from both the applied output and the failure list and simply continues. -/
theorem c3_amended_reverse_clean_skipped : ∀ {σ : Type} (g : GitOracle σ) (s : σ)
    (label content : String) (rest : List Patch),
    g.directOk s content = false → g.reverseOk s content = true →
    apply_patch g s label content true
      = (Outcome.skipped, "already applied (reverse clean)", s) ∧
    tuxedoLoop g s ((label, content) :: rest) = tuxedoLoop g s rest := by
  intro σ g s label content rest hdir hrev
  have happ : apply_patch g s label content true =
      (Outcome.skipped, "already applied (reverse clean)", s) := by
    simp [apply_patch, hdir, hrev]
  refine ⟨happ, ?_⟩
  simp [tuxedoLoop, happ]

/-- Oracle for the C3 witness: direct apply fails, the inverse is clean. -/
def gW3 : GitOracle Nat :=
  GitOracle.mk (fun _ _ => false) (fun s _ => s) (fun _ _ => true) (fun _ _ => false)
    (fun s _ => s) (fun s _ => s) (fun _ _ => "m") (fun _ => 0)

/-- Witness for the amended C3 at a concrete reverse-clean patch. -/
theorem c3_witness :
    gW3.directOk 0 "x" = false ∧ gW3.reverseOk 0 "x" = true ∧
    (apply_patch gW3 0 "B1" "x" true = (Outcome.skipped, "already applied (reverse clean)", 0) ∧
     tuxedoLoop gW3 0 [("B1", "x"), ("B2", "y")] = tuxedoLoop gW3 0 [("B2", "y")]) :=
  ⟨rfl, rfl, c3_amended_reverse_clean_skipped gW3 0 "B1" "x" [("B2", "y")] rfl rfl⟩

/-- Helper: when the loader loop succeeds it returns one patch per URL, and
every URL's resolved file exists. -/
theorem cachyosGo_ok_complete (fs : String → Option String) (repo folder : String) :
    ∀ (urls : List String) (res : List Patch),
      cachyosGo fs repo folder urls = Except.ok res →
      res.length = urls.length ∧
      ∀ url ∈ urls, (fs (repo ++ "/" ++ folder ++ "/" ++ derive_rel folder url)).isSome = true := by
  intro urls
  induction urls with
  | nil =>
    intro res h
    injection h with h
    subst h
    exact ⟨rfl, by intro url hu; cases hu⟩
  | cons url rest ih =>
    intro res h
    simp only [cachyosGo] at h
    rcases hfs : fs (repo ++ "/" ++ folder ++ "/" ++ derive_rel folder url) with _ | content
    · rw [hfs] at h
      cases h
    · rw [hfs] at h
      rcases hrec : cachyosGo fs repo folder rest with e | acc
      · rw [hrec] at h
        cases h
      · rw [hrec] at h
        injection h with h
        subst h
        obtain ⟨hlen, hall⟩ := ih acc hrec
        refine ⟨by simp [hlen], ?_⟩
        intro u hu
        rcases List.mem_cons.mp hu with rfl | hu
        · rw [hfs]
          rfl
        · exact hall u hu

/-- Helper: when some URL's resolved file is missing, the loader loop fails
with the missing-patch diagnostic of a URL of the list. -/
theorem cachyosGo_missing_error (fs : String → Option String) (repo folder : String) :
    ∀ (urls : List String),
      (∃ url ∈ urls, fs (repo ++ "/" ++ folder ++ "/" ++ derive_rel folder url) = none) →
      ∃ u ∈ urls, cachyosGo fs repo folder urls =
        Except.error ("Missing CachyOS patch referenced by PKGBUILD: "
          ++ (repo ++ "/" ++ folder ++ "/" ++ derive_rel folder u)) := by
  intro urls
  induction urls with
  | nil =>
    rintro ⟨url, hu, _⟩
    cases hu
  | cons url rest ih =>
    rintro ⟨u0, hu0, hmiss⟩
    rcases hfs : fs (repo ++ "/" ++ folder ++ "/" ++ derive_rel folder url) with _ | content
    · refine ⟨url, List.mem_cons_self url rest, ?_⟩
      simp only [cachyosGo]
      rw [hfs]
    · rcases List.mem_cons.mp hu0 with rfl | hu0rest
      · rw [hfs] at hmiss
        cases hmiss
      · obtain ⟨u, hu, herr⟩ := ih ⟨u0, hu0rest, hmiss⟩
        refine ⟨u, List.mem_cons_of_mem url hu, ?_⟩
        simp only [cachyosGo]
        rw [hfs, herr]

/-- Claim C8: for every URL of the filtered source list the loader resolves a
relative path and requires the file to exist: a successful run loads one
patch per URL with every resolved file present, and any missing resolved file
makes the whole loader fail with the missing-patch error — a declared patch
is never silently dropped. -/
theorem c8_loader_never_drops : ∀ (fs : String → Option String) (repo folder : String)
    (lines : List String),
    (∀ res, collect_cachyos_patches fs repo folder lines = Except.ok res →
      res.length = (filteredUrls lines).length ∧
      ∀ url ∈ filteredUrls lines,
        (fs (repo ++ "/" ++ folder ++ "/" ++ derive_rel folder url)).isSome = true) ∧
    (∀ url ∈ filteredUrls lines,
      fs (repo ++ "/" ++ folder ++ "/" ++ derive_rel folder url) = none →
      ∃ u ∈ filteredUrls lines,
        collect_cachyos_patches fs repo folder lines =
          Except.error ("Missing CachyOS patch referenced by PKGBUILD: "
            ++ (repo ++ "/" ++ folder ++ "/" ++ derive_rel folder u))) := by
  intro fs repo folder lines
  constructor
  · intro res h
    by_cases he : (filteredUrls lines).isEmpty = true
    · simp [collect_cachyos_patches, he] at h
    · have hco : collect_cachyos_patches fs repo folder lines
          = cachyosGo fs repo folder (filteredUrls lines) := by
        simp [collect_cachyos_patches, he]
      rw [hco] at h
      exact cachyosGo_ok_complete fs repo folder (filteredUrls lines) res h
  · intro url hu hmiss
    have hne : ¬ (filteredUrls lines).isEmpty = true := by
      cases hul : filteredUrls lines with
      | nil => rw [hul] at hu; cases hu
      | cons a l => simp
    have hco : collect_cachyos_patches fs repo folder lines
        = cachyosGo fs repo folder (filteredUrls lines) := by
      simp [collect_cachyos_patches, hne]
    obtain ⟨u, hu2, herr⟩ :=
      cachyosGo_missing_error fs repo folder (filteredUrls lines) ⟨url, hu, hmiss⟩
    exact ⟨u, hu2, by rw [hco, herr]⟩

/-- Filesystem for the C8 witness: no file exists. -/
def fsW8 : String → Option String := fun _ => none

/-- Manifest source lines for the C8 witness. -/
def linesW8 : List String := ["https://example.org/kernel/6.19/0001-base.patch"]

/-- Witness for C8: the single declared patch is missing from the checkout,
so the loader fails with the missing-patch error. -/
theorem c8_witness :
    "https://example.org/kernel/6.19/0001-base.patch" ∈ filteredUrls linesW8 ∧
    fsW8 ("repo" ++ "/" ++ "6.19" ++ "/"
      ++ derive_rel "6.19" "https://example.org/kernel/6.19/0001-base.patch") = none ∧
    ∃ u ∈ filteredUrls linesW8,
      collect_cachyos_patches fsW8 "repo" "6.19" linesW8 =
        Except.error ("Missing CachyOS patch referenced by PKGBUILD: "
          ++ ("repo" ++ "/" ++ "6.19" ++ "/" ++ derive_rel "6.19" u)) :=
  ⟨by decide, rfl,
   (c8_loader_never_drops fsW8 "repo" "6.19" linesW8).2
     "https://example.org/kernel/6.19/0001-base.patch" (by decide) rfl⟩
